import Mathlib

/-!
Verification of the CareerHarvester backend (`src/backend/resume_parser.py`,
`src/backend/agent.py`, `src/backend/app.py`) against its natural-language
specification.

The Python code is shallowly embedded:
* Python `str` values appearing at the byte/codec layer are modelled as
  `List Nat` (sequences of Unicode code points), `bytes` as `List Nat`
  (values `< 256`); `str` values at the agent layer are modelled as
  `List Char` or `String` where convenient.
* External collaborators (PyPDF2, python-docx, `json.loads`, Python's
  runtime `hash`) are parameters of the embedded functions.
* Raised exceptions are modelled with `Except`/`Option` results.
-/

/-! ## Python string primitives -/

/-- A Lean string literal as a sequence of Unicode code points (Python `str`). -/
def pystr (s : String) : List Nat := s.toList.map Char.toNat

/-- The code points Python's `str.strip()` removes (`str.isspace` characters). -/
def pyWhitespace : List Nat :=
  [0x09, 0x0A, 0x0B, 0x0C, 0x0D, 0x1C, 0x1D, 0x1E, 0x1F, 0x20, 0x85, 0xA0,
   0x1680, 0x2000, 0x2001, 0x2002, 0x2003, 0x2004, 0x2005, 0x2006, 0x2007,
   0x2008, 0x2009, 0x200A, 0x2028, 0x2029, 0x202F, 0x205F, 0x3000]

/-- Whether a code point is Python whitespace. -/
def pyIsSpaceN (c : Nat) : Bool := pyWhitespace.contains c

/-- Python's `str.strip()`: drop leading and trailing elements satisfying `isSp`. -/
def pyStripBy {α : Type} (isSp : α → Bool) (l : List α) : List α :=
  ((l.dropWhile isSp).reverse.dropWhile isSp).reverse

/-- `str.strip()` on a code-point string. -/
def pyStrip (l : List Nat) : List Nat := pyStripBy pyIsSpaceN l

/-- `str.strip()` on a `List Char` string. -/
def pyStripC (l : List Char) : List Char := pyStripBy (fun c => pyIsSpaceN c.toNat) l

/-- Python `str.lower()` restricted to ASCII letters.  All patterns the code
compares against after lowercasing are ASCII, so this captures the behaviour
of `.lower()` exactly on the inputs that can influence any branch. -/
def asciiLowerChar (c : Char) : Char :=
  if 'A' ≤ c ∧ c ≤ 'Z' then Char.ofNat (c.toNat + 32) else c

/-- Index of the first occurrence of `sep` in a list, if any
(the search Python's `str.split`/`in` perform). -/
def findSubstr {α : Type} [DecidableEq α] (sep : List α) : List α → Option Nat
  | [] => if sep.isEmpty then some 0 else none
  | x :: xs =>
    if sep.isPrefixOf (x :: xs) then some 0 else (findSubstr sep xs).map (· + 1)

/-- Python's `sub in s` substring test. -/
def pyContains {α : Type} [DecidableEq α] (sep s : List α) : Bool :=
  (findSubstr sep s).isSome

/-- Python's `s.split(sep)` for a non-empty separator: split at each
left-most, non-overlapping occurrence of `sep`.  (Python raises on an empty
separator; that case never arises in the embedded code and returns `[s]`.) -/
def pySplit {α : Type} [DecidableEq α] (sep : List α) (s : List α) : List (List α) :=
  if h : sep.isEmpty then [s]
  else
    match s with
    | [] => [[]]
    | x :: xs =>
      match findSubstr sep (x :: xs) with
      | none => [x :: xs]
      | some i => (x :: xs).take i :: pySplit sep ((x :: xs).drop (i + sep.length))
termination_by s.length
decreasing_by
  simp only [List.length_drop, List.length_cons]
  cases sep with
  | nil => simp [List.isEmpty] at h
  | cons a as => simp only [List.length_cons]; omega

/-- Python's `parts[n]` on a split result.  In the embedded code every such
index access is guarded by an `in` test that guarantees the index exists. -/
def pyIdx {α : Type} (n : Nat) (parts : List (List α)) : List α := parts.getD n []

/-- Python's `sep.join(parts)`. -/
def pyJoin {α : Type} (sep : List α) : List (List α) → List α
  | [] => []
  | [p] => p
  | p :: q :: rest => p ++ sep ++ pyJoin sep (q :: rest)

/-! ## `agent.py` — `JobSearchAgent.search_jobs`, platform normalization
(lines 161–180 of `src/backend/agent.py`) -/

/-- Platform-name normalization from `JobSearchAgent.search_jobs`
(`src/backend/agent.py` lines 165–178).  Note that the source maps any
platform text containing `"indeed"` to `"Other"` (lines 175–176), although
its own model instructions (line 108) list `"Indeed"` as a platform value. -/
def normalize_platform (platform : List Char) : List Char :=
  if pyContains ("104".toList) (platform.map asciiLowerChar) then "104".toList
  else if pyContains ("1111".toList) (platform.map asciiLowerChar) then "1111".toList
  else if pyContains ("cake".toList) (platform.map asciiLowerChar) then "CakeResume".toList
  else if pyContains ("linkedin".toList) (platform.map asciiLowerChar) then "LinkedIn".toList
  else if pyContains ("indeed".toList) (platform.map asciiLowerChar) then "Other".toList
  else "Other".toList

/-! ## `resume_parser.py` — text-file decoding (`extract_text_from_txt`,
lines 98–118).  The codecs are Python's `utf-8`, `utf-16`, `latin-1`,
`cp1252`; bytes are `Nat < 256`, decoded strings are code-point lists. -/

/-- One code point, UTF-8 encoded (canonical encoding of a scalar value). -/
def utf8EncodeChar (c : Nat) : List Nat :=
  if c < 0x80 then [c]
  else if c < 0x800 then [0xC0 + c / 0x40, 0x80 + c % 0x40]
  else if c < 0x10000 then
    [0xE0 + c / 0x1000, 0x80 + (c / 0x40) % 0x40, 0x80 + c % 0x40]
  else
    [0xF0 + c / 0x40000, 0x80 + (c / 0x1000) % 0x40, 0x80 + (c / 0x40) % 0x40,
     0x80 + c % 0x40]

/-- Python's `str.encode('utf-8')`. -/
def utf8Encode : List Nat → List Nat
  | [] => []
  | c :: r => utf8EncodeChar c ++ utf8Encode r

/-- The byte-at-a-time DFA of Python's strict `bytes.decode('utf-8')`:
`k` continuation bytes are still expected, the next byte must lie in
`[lo, hi]` (this encodes the overlong and surrogate restrictions on the
first continuation byte), and `acc` is the value accumulated so far.
Reaching the end mid-sequence, a byte outside the expected range, a stray
continuation byte, `C0`/`C1`, or a lead byte above `F4` all fail. -/
def utf8DecAux : Nat → Nat → Nat → Nat → List Nat → Option (List Nat)
  | 0, _, _, _, [] => some []
  | _+1, _, _, _, [] => none
  | 0, _, _, _, b :: r =>
    if b < 0x80 then (utf8DecAux 0 0 0 0 r).map (b :: ·)
    else if b < 0xC2 then none
    else if b < 0xE0 then utf8DecAux 1 0x80 0xBF (b - 0xC0) r
    else if b = 0xE0 then utf8DecAux 2 0xA0 0xBF (b - 0xE0) r
    else if b = 0xED then utf8DecAux 2 0x80 0x9F (b - 0xE0) r
    else if b < 0xF0 then utf8DecAux 2 0x80 0xBF (b - 0xE0) r
    else if b = 0xF0 then utf8DecAux 3 0x90 0xBF (b - 0xF0) r
    else if b = 0xF4 then utf8DecAux 3 0x80 0x8F (b - 0xF0) r
    else if b < 0xF5 then utf8DecAux 3 0x80 0xBF (b - 0xF0) r
    else none
  | 1, lo, hi, acc, b :: r =>
    if lo ≤ b ∧ b ≤ hi then (utf8DecAux 0 0 0 0 r).map ((acc * 0x40 + (b - 0x80)) :: ·)
    else none
  | 2, lo, hi, acc, b :: r =>
    if lo ≤ b ∧ b ≤ hi then utf8DecAux 1 0x80 0xBF (acc * 0x40 + (b - 0x80)) r
    else none
  | 3, lo, hi, acc, b :: r =>
    if lo ≤ b ∧ b ≤ hi then utf8DecAux 2 0x80 0xBF (acc * 0x40 + (b - 0x80)) r
    else none
  | _+4, _, _, _, _ :: _ => none

/-- Python's `bytes.decode('utf-8')` (strict): rejects overlong forms,
surrogates, code points above `0x10FFFF`, truncated sequences and stray
continuation bytes; `none` models a raised `UnicodeDecodeError`. -/
def utf8Decode (b : List Nat) : Option (List Nat) := utf8DecAux 0 0 0 0 b

/-- One code point as UTF-16 little-endian bytes (surrogate pair above
`0xFFFF`). -/
def utf16EncodeChar (c : Nat) : List Nat :=
  if c < 0x10000 then [c % 0x100, c / 0x100]
  else
    [(0xD800 + (c - 0x10000) / 0x400) % 0x100, (0xD800 + (c - 0x10000) / 0x400) / 0x100,
     (0xDC00 + (c - 0x10000) % 0x400) % 0x100, (0xDC00 + (c - 0x10000) % 0x400) / 0x100]

/-- Concatenated UTF-16-LE code units without a byte-order mark. -/
def utf16EncodeBody : List Nat → List Nat
  | [] => []
  | c :: r => utf16EncodeChar c ++ utf16EncodeBody r

/-- Python's `str.encode('utf-16')` on a little-endian platform:
a `FF FE` byte-order mark followed by little-endian code units. -/
def utf16Encode (s : List Nat) : List Nat := 0xFF :: 0xFE :: utf16EncodeBody s

/-- Little-endian UTF-16 decoding, two bytes at a time; the first argument
carries a pending high surrogate awaiting its low partner.  Odd length and
lone surrogates fail (`UnicodeDecodeError`). -/
def utf16LEAux : Option Nat → List Nat → Option (List Nat)
  | none, [] => some []
  | some _, [] => none
  | _, [_] => none
  | none, b1 :: b2 :: r =>
    if b1 + 0x100 * b2 < 0xD800 ∨ 0xE000 ≤ b1 + 0x100 * b2 then
      (utf16LEAux none r).map ((b1 + 0x100 * b2) :: ·)
    else if b1 + 0x100 * b2 < 0xDC00 then utf16LEAux (some (b1 + 0x100 * b2)) r
    else none
  | some hi, b1 :: b2 :: r =>
    if 0xDC00 ≤ b1 + 0x100 * b2 ∧ b1 + 0x100 * b2 < 0xE000 then
      (utf16LEAux none r).map
        ((0x10000 + (hi - 0xD800) * 0x400 + (b1 + 0x100 * b2 - 0xDC00)) :: ·)
    else none

/-- Little-endian UTF-16 decoding. -/
def utf16DecodeLE (b : List Nat) : Option (List Nat) := utf16LEAux none b

/-- Big-endian UTF-16 decoding (after a `FE FF` byte-order mark). -/
def utf16BEAux : Option Nat → List Nat → Option (List Nat)
  | none, [] => some []
  | some _, [] => none
  | _, [_] => none
  | none, b1 :: b2 :: r =>
    if 0x100 * b1 + b2 < 0xD800 ∨ 0xE000 ≤ 0x100 * b1 + b2 then
      (utf16BEAux none r).map ((0x100 * b1 + b2) :: ·)
    else if 0x100 * b1 + b2 < 0xDC00 then utf16BEAux (some (0x100 * b1 + b2)) r
    else none
  | some hi, b1 :: b2 :: r =>
    if 0xDC00 ≤ 0x100 * b1 + b2 ∧ 0x100 * b1 + b2 < 0xE000 then
      (utf16BEAux none r).map
        ((0x10000 + (hi - 0xD800) * 0x400 + (0x100 * b1 + b2 - 0xDC00)) :: ·)
    else none

/-- Big-endian UTF-16 decoding. -/
def utf16DecodeBE (b : List Nat) : Option (List Nat) := utf16BEAux none b

/-- Python's `bytes.decode('utf-16')`: honour a leading byte-order mark,
otherwise assume the platform's (little-endian) order. -/
def utf16Decode : List Nat → Option (List Nat)
  | 0xFF :: 0xFE :: r => utf16DecodeLE r
  | 0xFE :: 0xFF :: r => utf16DecodeBE r
  | b => utf16DecodeLE b

/-- Python's `bytes.decode('latin-1')`: byte `k` is code point `k`;
never fails. -/
def latin1Decode (b : List Nat) : Option (List Nat) := some b

/-- The cp1252 value of one byte (bytes outside `0x80–0x9F` decode as
themselves). -/
def cp1252Char (b : Nat) : Nat :=
  if b = 0x80 then 0x20AC else if b = 0x82 then 0x201A
  else if b = 0x83 then 0x192 else if b = 0x84 then 0x201E
  else if b = 0x85 then 0x2026 else if b = 0x86 then 0x2020
  else if b = 0x87 then 0x2021 else if b = 0x88 then 0x2C6
  else if b = 0x89 then 0x2030 else if b = 0x8A then 0x160
  else if b = 0x8B then 0x2039 else if b = 0x8C then 0x152
  else if b = 0x8E then 0x17D else if b = 0x91 then 0x2018
  else if b = 0x92 then 0x2019 else if b = 0x93 then 0x201C
  else if b = 0x94 then 0x201D else if b = 0x95 then 0x2022
  else if b = 0x96 then 0x2013 else if b = 0x97 then 0x2014
  else if b = 0x98 then 0x2DC else if b = 0x99 then 0x2122
  else if b = 0x9A then 0x161 else if b = 0x9B then 0x203A
  else if b = 0x9C then 0x153 else if b = 0x9E then 0x17E
  else if b = 0x9F then 0x178 else b

/-- Python's `bytes.decode('cp1252')`; the five unassigned bytes raise. -/
def cp1252Decode : List Nat → Option (List Nat)
  | [] => some []
  | b :: r =>
    if b = 0x81 ∨ b = 0x8D ∨ b = 0x8F ∨ b = 0x90 ∨ b = 0x9D then none
    else (cp1252Decode r).map (cp1252Char b :: ·)

/-- Python's `bytes.decode('utf-8', errors='replace')`: invalid input is
replaced by `U+FFFD` and decoding resumes at the first offending byte.
(In `extract_text_from_txt` this fallback is unreachable because the
`latin-1` attempt never fails.) -/
def utf8ReplaceDecode : List Nat → List Nat
  | [] => []
  | b1 :: r =>
    if b1 < 0x80 then b1 :: utf8ReplaceDecode r
    else if b1 < 0xC2 then 0xFFFD :: utf8ReplaceDecode r
    else if b1 < 0xE0 then
      match r with
      | b2 :: r2 =>
        if 0x80 ≤ b2 ∧ b2 < 0xC0 then
          ((b1 - 0xC0) * 0x40 + (b2 - 0x80)) :: utf8ReplaceDecode r2
        else 0xFFFD :: utf8ReplaceDecode (b2 :: r2)
      | [] => [0xFFFD]
    else if b1 < 0xF0 then
      match r with
      | b2 :: r2 =>
        if (0x80 ≤ b2 ∧ b2 < 0xC0) ∧ (b1 = 0xE0 → 0xA0 ≤ b2) ∧ (b1 = 0xED → b2 < 0xA0) then
          match r2 with
          | b3 :: r3 =>
            if 0x80 ≤ b3 ∧ b3 < 0xC0 then
              ((b1 - 0xE0) * 0x1000 + (b2 - 0x80) * 0x40 + (b3 - 0x80)) :: utf8ReplaceDecode r3
            else 0xFFFD :: utf8ReplaceDecode (b3 :: r3)
          | [] => [0xFFFD]
        else 0xFFFD :: utf8ReplaceDecode (b2 :: r2)
      | [] => [0xFFFD]
    else if b1 < 0xF5 then
      match r with
      | b2 :: r2 =>
        if (0x80 ≤ b2 ∧ b2 < 0xC0) ∧ (b1 = 0xF0 → 0x90 ≤ b2) ∧ (b1 = 0xF4 → b2 < 0x90) then
          match r2 with
          | b3 :: r3 =>
            if 0x80 ≤ b3 ∧ b3 < 0xC0 then
              match r3 with
              | b4 :: r4 =>
                if 0x80 ≤ b4 ∧ b4 < 0xC0 then
                  ((b1 - 0xF0) * 0x40000 + (b2 - 0x80) * 0x1000 + (b3 - 0x80) * 0x40 +
                    (b4 - 0x80)) :: utf8ReplaceDecode r4
                else 0xFFFD :: utf8ReplaceDecode (b4 :: r4)
              | [] => [0xFFFD]
            else 0xFFFD :: utf8ReplaceDecode (b3 :: r3)
          | [] => [0xFFFD]
        else 0xFFFD :: utf8ReplaceDecode (b2 :: r2)
      | [] => [0xFFFD]
    else 0xFFFD :: utf8ReplaceDecode r

/-- The `for encoding in encodings` loop of `extract_text_from_txt`
(`src/backend/resume_parser.py` lines 109–115): the first codec in
`['utf-8', 'utf-16', 'latin-1', 'cp1252']` that decodes the bytes. -/
def tryEncodings (b : List Nat) : Option (List Nat) :=
  (utf8Decode b).orElse fun _ =>
    (utf16Decode b).orElse fun _ =>
      (latin1Decode b).orElse fun _ => cp1252Decode b

/-- `extract_text_from_txt` (`src/backend/resume_parser.py` lines 98–118):
decode with the first successful codec and strip, falling back to lossy
UTF-8 with replacement characters. -/
def extract_text_from_txt (b : List Nat) : List Nat :=
  match tryEncodings b with
  | some s => pyStrip s
  | none => pyStrip (utf8ReplaceDecode b)

/-! ## `resume_parser.py` — PDF/DOCX extraction and format dispatch
(lines 16–95 and 121–163).  The underlying libraries (PyPDF2, python-docx)
are passed in as readers: a reader either fails (a raised parser exception,
carried as its message) or yields the page texts / document structure. -/

/-- The error taxonomy of the spec (§7): `unsupportedFormat` is the
`ValueError` raised for rejected formats, `extractionFailed` the
`RuntimeError` raised when an underlying parser fails. -/
inductive ParseError where
  | unsupportedFormat : List Nat → ParseError
  | extractionFailed : List Nat → ParseError
deriving DecidableEq

/-- Sentinel returned for a PDF that parses but has no extractable text
(`src/backend/resume_parser.py` line 42). -/
def PDF_SENTINEL : List Nat := pystr "[PDF contains no extractable text - may be image-based]"

/-- Sentinel returned for a DOCX with no extractable text (line 86). -/
def DOCX_SENTINEL : List Nat := pystr "[Document contains no extractable text]"

/-- `extract_text_from_pdf` (lines 16–51): `readPdf` stands for
`PdfReader(...).pages` with `page.extract_text()` applied to each page;
its `error` case is any exception the library raises. -/
def extract_text_from_pdf (readPdf : List Nat → Except (List Nat) (List (List Nat)))
    (file_content : List Nat) : Except ParseError (List Nat) :=
  match readPdf file_content with
  | .error e => .error (.extractionFailed (pystr "Failed to parse PDF: " ++ e))
  | .ok pages =>
    let text_parts := pages.filter (fun p => p ≠ [])
    let full_text := pyJoin (pystr "\n\n") text_parts
    if pyStrip full_text = [] then .ok PDF_SENTINEL
    else .ok (pyStrip full_text)

/-- The parts of a python-docx `Document` that `extract_text_from_docx`
reads: paragraph texts, and table cell texts (tables → rows → cells). -/
structure DocxDoc where
  paragraphs : List (List Nat)
  tables : List (List (List (List Nat)))

/-- `extract_text_from_docx` (lines 54–95): paragraph texts whose strip is
non-empty, then each table row's non-blank stripped cells joined with
`" | "`; the result is stripped, with a sentinel for an all-blank document. -/
def extract_text_from_docx (readDocx : List Nat → Except (List Nat) DocxDoc)
    (file_content : List Nat) : Except ParseError (List Nat) :=
  match readDocx file_content with
  | .error e => .error (.extractionFailed (pystr "Failed to parse DOCX: " ++ e))
  | .ok doc =>
    let para_parts := doc.paragraphs.filter (fun p => pyStrip p ≠ [])
    let row_texts :=
      (doc.tables.map (fun table =>
        table.map (fun row => pyJoin (pystr " | ") ((row.map pyStrip).filter (fun c => c ≠ []))))).flatten
    let text_parts := para_parts ++ row_texts.filter (fun r => r ≠ [])
    let full_text := pyJoin (pystr "\n") text_parts
    if pyStrip full_text = [] then .ok DOCX_SENTINEL
    else .ok (pyStrip full_text)

/-- The PDF MIME type tested by `parse_resume` (line 140). -/
def PDF_MIME : String := "application/pdf"

/-- The DOCX MIME type tested by `parse_resume` (line 144). -/
def DOCX_MIME : String := "application/vnd.openxmlformats-officedocument.wordprocessingml.document"

/-- `parse_resume` (`src/backend/resume_parser.py` lines 121–163): format
dispatch on the lower-cased filename and the declared MIME type.  The final
`try: return extract_text_from_txt(...) except: raise ValueError(...)`
branch cannot raise because `extract_text_from_txt` is total, so the
unknown-format case is plain text extraction. -/
def parse_resume (readPdf : List Nat → Except (List Nat) (List (List Nat)))
    (readDocx : List Nat → Except (List Nat) DocxDoc)
    (file_content : List Nat) (filename : List Char) (mime_type : Option String) :
    Except ParseError (List Nat) :=
  if (".pdf".toList).isSuffixOf (filename.map asciiLowerChar) ∨ mime_type = some PDF_MIME then
    extract_text_from_pdf readPdf file_content
  else if (".docx".toList).isSuffixOf (filename.map asciiLowerChar) ∨ mime_type = some DOCX_MIME then
    extract_text_from_docx readDocx file_content
  else if (".doc".toList).isSuffixOf (filename.map asciiLowerChar) then
    .error (.unsupportedFormat
      (pystr "Legacy .doc format not supported. Please convert to .docx or .pdf"))
  else if (".txt".toList).isSuffixOf (filename.map asciiLowerChar) ∨
      (".md".toList).isSuffixOf (filename.map asciiLowerChar) ∨
      (".markdown".toList).isSuffixOf (filename.map asciiLowerChar) then
    .ok (extract_text_from_txt file_content)
  else
    .ok (extract_text_from_txt file_content)

/-! ## `agent.py` — JSON model output and its normalization.
`json.loads` is an external collaborator, modelled as a parameter producing
a `Json` value (`none` = `json.JSONDecodeError`). -/

/-- JSON values as produced by `json.loads`.  Objects keep their key order
(Python dicts preserve insertion order); numbers are modelled as integers,
which covers every value the claims mention. -/
inductive Json where
  | null : Json
  | bool : Bool → Json
  | num : Int → Json
  | str : String → Json
  | arr : List Json → Json
  | obj : List (String × Json) → Json

/-- Python dict assignment `d[k] = v`: replace in place if `k` is present
(keys of a parsed dict are unique), else append. -/
def dictSet (kvs : List (String × Json)) (k : String) (v : Json) : List (String × Json) :=
  if (kvs.lookup k).isSome then kvs.map (fun p => if p.1 = k then (k, v) else p)
  else kvs ++ [(k, v)]

/-- Exceptions escaping an agent method: `runtimeError` is an explicit
`raise RuntimeError(msg)`, `uncaught` any other exception re-raised by the
bare `raise` in the final `except` clause. -/
inductive AgentError where
  | runtimeError : List Char → AgentError
  | uncaught : AgentError
deriving DecidableEq

/-- The fence-stripping step of `JobSearchAgent.search_jobs`
(`src/backend/agent.py` lines 151–157): if `"```json"` occurs, take what
lies between the first `"```json"` and the next `"```"`; otherwise, if
`"```"` occurs, take what lies between the first two `"```"`; otherwise
leave the text unchanged. -/
def strip_code_fences (result_text : List Char) : List Char :=
  if pyContains ("```json".toList) result_text then
    pyIdx 0 (pySplit ("```".toList) (pyIdx 1 (pySplit ("```json".toList) result_text)))
  else if pyContains ("```".toList) result_text then
    pyIdx 0 (pySplit ("```".toList) (pyIdx 1 (pySplit ("```".toList) result_text)))
  else result_text

/-- The per-job loop of `search_jobs` (lines 162–180): assign the synthetic
`id` (via Python's runtime `hash`, an oracle `pyhash` that is `none` on
unhashable values), then normalize the platform.  A non-dict job entry or a
non-string platform value raises (`uncaught`). -/
def process_jobs (pyhash : Json → Option Int) : Nat → List Json → Except AgentError (List Json)
  | _, [] => .ok []
  | idx, job :: rest =>
    match job with
    | .obj kvs =>
      match pyhash ((kvs.lookup "link").getD (.str "")) with
      | none => .error .uncaught
      | some h =>
        let kvs1 := dictSet kvs "id" (.str ("job-" ++ toString idx ++ "-" ++ toString h))
        match (kvs1.lookup "platform").getD (.str "Other") with
        | .str p =>
          let kvs2 := dictSet kvs1 "platform" (.str ⟨normalize_platform p.toList⟩)
          match process_jobs pyhash (idx + 1) rest with
          | .ok js => .ok (.obj kvs2 :: js)
          | .error e => .error e
        | _ => .error .uncaught
    | _ => .error .uncaught

/-- `JobSearchAgent.search_jobs` from the model's response text onwards
(`src/backend/agent.py` lines 147–191).  `result_text = none` models "no
`output_text` item in the response"; `loads` models `json.loads` on the
stripped text.  A `json.JSONDecodeError` (`loads` returning `none`) is
caught and turned into an empty list; other exceptions re-raise. -/
def search_jobs_from_response (loads : List Char → Option Json) (pyhash : Json → Option Int)
    (result_text : Option (List Char)) : Except AgentError (List Json) :=
  match result_text with
  | none => .ok []
  | some t =>
    if t = [] then .ok []
    else
      match loads (pyStripC (strip_code_fences t)) with
      | none => .ok []
      | some j =>
        match j with
        | .obj kvs =>
          match (kvs.lookup "jobs").getD (.arr []) with
          | .arr jobs => process_jobs pyhash 0 jobs
          | _ => .error .uncaught
        | _ => .error .uncaught

/-- The required profile keys checked by `ResumeAnalyzer.analyze`
(`src/backend/agent.py` line 266). -/
def required_fields : List String := ["name", "summary", "skills", "suggestedRoles"]

/-- The default filled in for a missing profile key (line 270). -/
def default_for (field : String) : Json :=
  if field = "skills" ∨ field = "suggestedRoles" then .arr [] else .str "Unknown"

/-- One iteration of the validation loop: add the default when the key is
missing. -/
def fillField (p : List (String × Json)) (field : String) : List (String × Json) :=
  if (p.lookup field).isNone then dictSet p field (default_for field) else p

/-- The whole validation loop over the four required keys (lines 266–270). -/
def validate_profile (profile : List (String × Json)) : List (String × Json) :=
  required_fields.foldl fillField profile

/-- Whether a string equals the given field name (Python `field == elem`
inside a list membership test; a non-string element never equals a string). -/
def jsonIsStr (field : String) : Json → Bool
  | .str s => s = field
  | _ => false

/-- Python's `field in j` for the parsed value `j`: key membership for
dicts, element membership for lists, substring test for strings; `none`
models the `TypeError` raised for other types. -/
def json_contains (j : Json) (field : String) : Option Bool :=
  match j with
  | .obj kvs => some (kvs.lookup field).isSome
  | .arr xs => some (xs.any (jsonIsStr field))
  | .str s => some (pyContains field.toList s.toList)
  | _ => none

/-- The `for field in required_fields` loop of `ResumeAnalyzer.analyze`
(lines 266–270) on an arbitrary parsed value: `field in profile` may raise
(`none`), item assignment on a non-dict raises, a dict gets the default. -/
def profile_fill_missing : Json → List String → Option Json
  | j, [] => some j
  | j, f :: fs =>
    match json_contains j f with
    | none => none
    | some true => profile_fill_missing j fs
    | some false =>
      match j with
      | .obj kvs => profile_fill_missing (.obj (dictSet kvs f (default_for f))) fs
      | _ => none

/-- The message of the `RuntimeError` raised by `ResumeAnalyzer.analyze`
when the model output is not parseable JSON (line 277). -/
def RESUME_PARSE_FAILURE_MSG : List Char :=
  "Failed to analyze resume - invalid response format".toList

/-- `ResumeAnalyzer.analyze` from the model's response text onwards
(`src/backend/agent.py` lines 262–280): parse, then fill missing required
fields; a parse failure raises `RuntimeError`, a `TypeError` inside the
loop re-raises. -/
def analyze_resume_from_response (loads : List Char → Option Json)
    (result_text : List Char) : Except AgentError Json :=
  match loads result_text with
  | none => .error (.runtimeError RESUME_PARSE_FAILURE_MSG)
  | some j =>
    match profile_fill_missing j required_fields with
    | some j2 => .ok j2
    | none => .error .uncaught

/-! ## `agent.py` — prompt-side truncation (claims C4) -/

/-- The marker appended when resume analysis truncates
(`src/backend/agent.py` line 224). -/
def CONTENT_TRUNCATED_MARKER : List Char := "\n[Content truncated...]".toList

/-- The resume text embedded by `ResumeAnalyzer.analyze` (lines 222–224):
truncated at 6000 characters with the marker appended. -/
def resume_text_for_analysis (resume_text : List Char) : List Char :=
  if 6000 < resume_text.length then resume_text.take 6000 ++ CONTENT_TRUNCATED_MARKER
  else resume_text

/-- The job-description snippet embedded by `CoverLetterGenerator.generate`
(line 297): `job_description[:2000]`, no marker. -/
def cover_letter_jd_snippet (job_description : List Char) : List Char :=
  job_description.take 2000

/-- The resume snippet embedded by `CoverLetterGenerator.generate`
(line 300): `resume_text[:3000]`, no marker. -/
def cover_letter_resume_snippet (resume_text : List Char) : List Char :=
  resume_text.take 3000

/-- The job-description snippet embedded by `JobMatchAnalyzer.analyze_match`
(line 341): `job_description[:2000]`, no marker. -/
def match_jd_snippet (job_description : List Char) : List Char :=
  job_description.take 2000

/-- The resume snippet embedded by `JobMatchAnalyzer.analyze_match`
(line 344): `resume_text[:3000]`, no marker. -/
def match_resume_snippet (resume_text : List Char) : List Char :=
  resume_text.take 3000

/-! ## `app.py` — the `/api/analyze-job-match` handler (claim C1) -/

/-- What the handler does with a request: reject it with a 400 response
before any model call, or proceed to the external model with a prompt. -/
inductive HandlerOutcome where
  | badRequest : List Nat → HandlerOutcome
  | callModel : List Nat → HandlerOutcome
deriving DecidableEq

/-- Whether the outcome is a 400-class rejection. -/
def HandlerOutcome.isBadRequest : HandlerOutcome → Bool
  | .badRequest _ => true
  | .callModel _ => false

/-- Placeholder used when the uploaded file is not valid UTF-8
(`src/backend/app.py` line 171). -/
def BINARY_FILE_PLACEHOLDER : List Nat := pystr "[Binary File Content]"

/-- The user prompt built by `analyze_job_match` (`src/backend/app.py`
lines 173–183): the job description is embedded unmodified, the file
content truncated to 2000 characters. -/
def app_match_prompt (job_description file_content : List Nat) : List Nat :=
  pystr "\n    I am applying for this job: \"" ++ job_description ++
  pystr "\".\n    Compare my resume content:\n    \"" ++ file_content.take 2000 ++
  pystr "\"...\n    \n    1. Identify missing keywords or skills that are critical for this specific job but missing from my resume.\n    2. Give a compatibility score (0-100).\n    3. Provide brief advice on how to tailor my resume for this role.\n    \n    Return JSON with keys: missingKeywords, matchScore, advice.\n    "

/-- The `/api/analyze-job-match` handler up to the model call
(`src/backend/app.py` lines 161–184): reject only a missing file part;
read `jobDescription` from the form with default `""`; decode the file as
UTF-8 with a placeholder on failure; then call the model. -/
def analyze_job_match (hasFilePart : Bool) (jobDescriptionForm : Option (List Nat))
    (fileBytes : List Nat) : HandlerOutcome :=
  if !hasFilePart then .badRequest (pystr "No file part")
  else
    .callModel (app_match_prompt (jobDescriptionForm.getD [])
      (match utf8Decode fileBytes with
       | some s => s
       | none => BINARY_FILE_PLACEHOLDER))

/-! ## Supporting lemmas -/

/-- Looking up the field just filled: the original value if present, the
default otherwise. -/
theorem fillField_lookup_self (p : List (String × Json)) (f : String) :
    (fillField p f).lookup f = some ((p.lookup f).getD (default_for f)) := by
  unfold fillField dictSet
  cases h : p.lookup f with
  | none => simp [h, List.lookup_append]
  | some v => simp [h]

/-- Filling one field leaves the other lookups unchanged. -/
theorem fillField_lookup_ne (p : List (String × Json)) (f g : String) (h : f ≠ g) :
    (fillField p g).lookup f = p.lookup f := by
  have hfg : (f == g) = false := beq_eq_false_iff_ne.mpr h
  unfold fillField dictSet
  cases hg : p.lookup g with
  | none => simp [hg, List.lookup_append, List.lookup_cons, hfg]
  | some v => simp [hg]

/-- On a parsed dict, the required-fields loop never raises and computes the
fold of `fillField`. -/
theorem profile_fill_obj (fs : List String) :
    ∀ kvs : List (String × Json),
      profile_fill_missing (.obj kvs) fs = some (.obj (fs.foldl fillField kvs)) := by
  induction fs with
  | nil => intro kvs; rfl
  | cons f fs ih =>
    intro kvs
    cases hc : kvs.lookup f with
    | some v =>
      have h1 : json_contains (.obj kvs) f = some true := by simp [json_contains, hc]
      have h2 : fillField kvs f = kvs := by unfold fillField; simp [hc]
      simp only [profile_fill_missing, h1, List.foldl_cons, h2, ih kvs]
    | none =>
      have h1 : json_contains (.obj kvs) f = some false := by simp [json_contains, hc]
      have h2 : fillField kvs f = dictSet kvs f (default_for f) := by
        unfold fillField; simp [hc]
      simp only [profile_fill_missing, h1, List.foldl_cons, h2,
        ih (dictSet kvs f (default_for f))]

/-- A suffix equals the drop of the list at the matching position. -/
theorem suffix_eq_drop {α : Type} {s l : List α} (h : s <:+ l) :
    s = l.drop (l.length - s.length) := by
  obtain ⟨t, rfl⟩ := h
  have hlen : (t ++ s).length - s.length = t.length := by
    simp [List.length_append]
  rw [hlen, List.drop_left]

/-- Two suffixes of the same list with equal lengths are equal. -/
theorem suffix_eq_of_length {α : Type} {s1 s2 l : List α} (h1 : s1 <:+ l)
    (h2 : s2 <:+ l) (hl : s1.length = s2.length) : s1 = s2 := by
  rw [suffix_eq_drop h1, suffix_eq_drop h2, hl]

/-- A filename whose lower-casing ends in `".doc"` does not end in `".pdf"`. -/
theorem not_pdf_suffix_of_doc {l : List Char} (h : ".doc".toList <:+ l) :
    ¬ ".pdf".toList <:+ l := by
  intro h2
  exact absurd (suffix_eq_of_length h h2 rfl) (by decide)

/-- A filename whose lower-casing ends in `".doc"` does not end in `".docx"`. -/
theorem not_docx_suffix_of_doc {l : List Char} (h : ".doc".toList <:+ l) :
    ¬ ".docx".toList <:+ l := by
  intro h2
  have hx : "docx".toList <:+ l :=
    List.IsSuffix.trans (⟨['.'], rfl⟩ : "docx".toList <:+ ".docx".toList) h2
  exact absurd (suffix_eq_of_length h hx rfl) (by decide)

/-- `str.strip()` yields the empty string exactly on all-whitespace input. -/
theorem pyStripBy_eq_nil_iff {α : Type} (p : α → Bool) (l : List α) :
    pyStripBy p l = [] ↔ ∀ c ∈ l, p c := by
  unfold pyStripBy
  rw [List.reverse_eq_nil_iff, List.dropWhile_eq_nil_iff]
  simp only [List.mem_reverse]
  constructor
  · intro h c hc
    rcases List.mem_append.mp
        (by rw [List.takeWhile_append_dropWhile (p := p) (l := l)]; exact hc) with h1 | h1
    · exact List.mem_takeWhile_imp h1
    · exact h c h1
  · intro h c hc
    exact h c ((List.dropWhile_sublist p).subset hc)

/-- Every element of a join comes from the separator or from one part. -/
theorem mem_pyJoin {α : Type} (sep : List α) (parts : List (List α)) (c : α) :
    c ∈ pyJoin sep parts → c ∈ sep ∨ ∃ p ∈ parts, c ∈ p := by
  induction parts with
  | nil => intro hc; simp [pyJoin] at hc
  | cons p rest ih =>
    cases rest with
    | nil =>
      intro hc
      right
      exact ⟨p, List.mem_cons_self _ _, by simpa [pyJoin] using hc⟩
    | cons q rest2 =>
      intro hc
      simp only [pyJoin, List.append_assoc, List.mem_append] at hc
      rcases hc with hc | hc | hc
      · exact Or.inr ⟨p, List.mem_cons_self _ _, hc⟩
      · exact Or.inl hc
      · rcases ih hc with h1 | ⟨p2, hp2, hc2⟩
        · exact Or.inl h1
        · exact Or.inr ⟨p2, List.mem_cons_of_mem _ hp2, hc2⟩

/-- Elements of any part appear in the join. -/
theorem mem_pyJoin_of_mem {α : Type} (sep : List α) (parts : List (List α))
    (p : List α) (hp : p ∈ parts) (c : α) (hc : c ∈ p) : c ∈ pyJoin sep parts := by
  induction parts with
  | nil => simp at hp
  | cons p0 rest ih =>
    cases rest with
    | nil =>
      rcases List.mem_cons.mp hp with rfl | h1
      · simpa [pyJoin] using hc
      · simp at h1
    | cons q rest2 =>
      simp only [pyJoin, List.append_assoc, List.mem_append]
      rcases List.mem_cons.mp hp with rfl | h1
      · exact Or.inl hc
      · exact Or.inr (Or.inr (ih h1))

/-- The blank-line and table separators consist of whitespace... the
`"\n\n"` separator is whitespace. -/
theorem blank_sep_whitespace : ∀ c ∈ pystr "\n\n", pyIsSpaceN c := by decide

/-- A successful PDF extraction never returns the empty string. -/
theorem pdf_extract_ok_ne_nil (readPdf : List Nat → Except (List Nat) (List (List Nat)))
    (content : List Nat) (t : List Nat)
    (h : extract_text_from_pdf readPdf content = .ok t) : t ≠ [] := by
  unfold extract_text_from_pdf at h
  cases hread : readPdf content with
  | error e => rw [hread] at h; simp at h
  | ok pages =>
    rw [hread] at h
    dsimp only at h
    split at h
    · cases h
      decide
    · rename_i hne
      cases h
      simpa using hne

/-- A successful DOCX extraction never returns the empty string. -/
theorem docx_extract_ok_ne_nil (readDocx : List Nat → Except (List Nat) DocxDoc)
    (content : List Nat) (t : List Nat)
    (h : extract_text_from_docx readDocx content = .ok t) : t ≠ [] := by
  unfold extract_text_from_docx at h
  cases hread : readDocx content with
  | error e => rw [hread] at h; simp at h
  | ok doc =>
    rw [hread] at h
    dsimp only at h
    split at h
    · cases h
      decide
    · rename_i hne
      cases h
      simpa using hne

/-- `findSubstr` returns `some 0` when the pattern is a prefix. -/
theorem findSubstr_of_isPrefixOf {α : Type} [DecidableEq α] {sep s : List α}
    (h : sep.isPrefixOf s) : findSubstr sep s = some 0 := by
  cases s with
  | nil =>
    have : sep = [] := List.prefix_nil.mp (List.isPrefixOf_iff_prefix.mp h)
    subst this
    rfl
  | cons x xs => simp [findSubstr, h]

/-- A hit of `findSubstr` is a position where the pattern is a prefix. -/
theorem findSubstr_some_isPrefixOf {α : Type} [DecidableEq α] {sep : List α} :
    ∀ {s : List α} {i : Nat}, findSubstr sep s = some i → sep.isPrefixOf (s.drop i) := by
  intro s
  induction s with
  | nil =>
    intro i h
    simp only [findSubstr] at h
    split at h
    · cases h
      simp_all [List.isEmpty_iff]
    · cases h
  | cons x xs ih =>
    intro i h
    simp only [findSubstr] at h
    split at h
    · cases h
      simpa using ‹sep.isPrefixOf (x :: xs) = true›
    · obtain ⟨j, hj, rfl⟩ := Option.map_eq_some'.mp h
      simpa using ih hj

/-- `findSubstr` finds the left-most hit. -/
theorem findSubstr_min {α : Type} [DecidableEq α] {sep : List α} :
    ∀ {s : List α} {i j : Nat}, findSubstr sep s = some i →
      sep.isPrefixOf (s.drop j) → i ≤ j := by
  intro s
  induction s with
  | nil =>
    intro i j h _
    simp only [findSubstr] at h
    split at h
    · cases h
      exact Nat.zero_le _
    · cases h
  | cons x xs ih =>
    intro i j h hp
    simp only [findSubstr] at h
    split at h
    · cases h
      exact Nat.zero_le _
    · obtain ⟨i', hi', rfl⟩ := Option.map_eq_some'.mp h
      cases j with
      | zero =>
        rename_i hnp
        simp only [List.drop_zero] at hp
        exact absurd hp (by simpa using hnp)
      | succ k =>
        have := ih hi' (by simpa using hp)
        omega

/-- If the pattern is a prefix somewhere, `findSubstr` succeeds. -/
theorem findSubstr_isSome_of_isPrefixOf {α : Type} [DecidableEq α] {sep : List α} :
    ∀ {s : List α} {j : Nat}, sep.isPrefixOf (s.drop j) → (findSubstr sep s).isSome := by
  intro s
  induction s with
  | nil =>
    intro j h
    have : sep = [] := List.prefix_nil.mp (List.isPrefixOf_iff_prefix.mp (by simpa using h))
    subst this
    rfl
  | cons x xs ih =>
    intro j h
    simp only [findSubstr]
    split
    · rfl
    · cases j with
      | zero =>
        rename_i hnp
        simp only [List.drop_zero] at h
        exact absurd h (by simpa using hnp)
      | succ k =>
        simpa using ih (by simpa using h)

/-- One unfolding step of `pySplit` on a non-empty string. -/
theorem pySplit_eq_of_ne_nil {α : Type} [DecidableEq α] (sep s : List α)
    (hsep : sep ≠ []) (hs : s ≠ []) :
    pySplit sep s =
      match findSubstr sep s with
      | none => [s]
      | some i => s.take i :: pySplit sep (s.drop (i + sep.length)) := by
  cases s with
  | nil => exact absurd rfl hs
  | cons x xs =>
    rw [pySplit]
    simp [List.isEmpty_iff, hsep]

/-- `pySplit` on a string without any occurrence of the separator. -/
theorem pySplit_of_none {α : Type} [DecidableEq α] (sep s : List α)
    (hsep : sep ≠ []) (h : findSubstr sep s = none) : pySplit sep s = [s] := by
  cases s with
  | nil => rw [pySplit]; simp [List.isEmpty_iff, hsep]
  | cons x xs =>
    rw [pySplit_eq_of_ne_nil sep _ hsep (by simp), h]

/-- When the first backtick fence after the content is the appended closing
fence, the content itself contains no fence. -/
theorem no_fence_in_content {c : List Char}
    (hc : findSubstr ("```".toList) (c ++ "```".toList) = some c.length) :
    findSubstr ("```".toList) c = none := by
  cases h : findSubstr ("```".toList) c with
  | none => rfl
  | some j =>
    have hp := findSubstr_some_isPrefixOf h
    have hlen : ("```".toList).length ≤ (c.drop j).length :=
      (List.isPrefixOf_iff_prefix.mp hp).length_le
    have h3 : ("```".toList).length = 3 := rfl
    rw [h3, List.length_drop] at hlen
    have hj3 : j + 3 ≤ c.length := by omega
    have hp2 : ("```".toList).isPrefixOf ((c ++ "```".toList).drop j) := by
      rw [List.drop_append_of_le_length (by omega)]
      exact List.isPrefixOf_iff_prefix.mpr
        (List.IsPrefix.trans (List.isPrefixOf_iff_prefix.mp hp) (List.prefix_append _ _))
    have hmin := findSubstr_min hc hp2
    exact absurd hmin (by omega)

/-- Under the same condition, no labelled fence occurs after the content. -/
theorem no_json_fence_after {c : List Char}
    (hc : findSubstr ("```".toList) (c ++ "```".toList) = some c.length) :
    findSubstr ("```json".toList) (c ++ "```".toList) = none := by
  cases h : findSubstr ("```json".toList) (c ++ "```".toList) with
  | none => rfl
  | some j =>
    have hp := findSubstr_some_isPrefixOf h
    have hlen : ("```json".toList).length ≤ ((c ++ "```".toList).drop j).length :=
      (List.isPrefixOf_iff_prefix.mp hp).length_le
    have h7 : ("```json".toList).length = 7 := rfl
    have h3 : ("```".toList).length = 3 := rfl
    rw [h7, List.length_drop, List.length_append, h3] at hlen
    have hp3 : ("```".toList).isPrefixOf ((c ++ "```".toList).drop j) :=
      List.isPrefixOf_iff_prefix.mpr
        (List.IsPrefix.trans (⟨"json".toList, rfl⟩ : "```".toList <+: "```json".toList)
          (List.isPrefixOf_iff_prefix.mp hp))
    have hmin := findSubstr_min hc hp3
    exact absurd hmin (by omega)

/-- Splitting `content ++ fence` at the fence, when the appended fence is
the first occurrence, isolates the content. -/
theorem pySplit_content_fence {c : List Char}
    (hc : findSubstr ("```".toList) (c ++ "```".toList) = some c.length) :
    pySplit ("```".toList) (c ++ "```".toList) = [c, []] := by
  rw [pySplit_eq_of_ne_nil _ _ (by decide) (by simp), hc]
  dsimp only
  rw [List.take_left]
  rw [show c.length + ("```".toList).length = (c ++ "```".toList).length from by
    simp [List.length_append]]
  rw [List.drop_length, pySplit_of_none ("```".toList) [] (by decide) (by decide)]

/-- Under the same condition the content itself splits trivially. -/
theorem pySplit_content_only {c : List Char}
    (hc : findSubstr ("```".toList) (c ++ "```".toList) = some c.length) :
    pySplit ("```".toList) c = [c] :=
  pySplit_of_none _ _ (by decide) (no_fence_in_content hc)

/-- Decoding one UTF-8-encoded ASCII code point. -/
theorem utf8_step_1 {c : Nat} (h1 : c < 0x80) (tail : List Nat) :
    utf8DecAux 0 0 0 0 (utf8EncodeChar c ++ tail)
      = (utf8DecAux 0 0 0 0 tail).map (c :: ·) := by
  rw [utf8EncodeChar, if_pos h1]
  show utf8DecAux 0 0 0 0 (c :: tail) = _
  rw [utf8DecAux.eq_3, if_pos h1]

/-- Decoding one UTF-8-encoded two-byte code point. -/
theorem utf8_step_2 {c : Nat} (h1 : 0x80 ≤ c) (h2 : c < 0x800) (tail : List Nat) :
    utf8DecAux 0 0 0 0 (utf8EncodeChar c ++ tail)
      = (utf8DecAux 0 0 0 0 tail).map (c :: ·) := by
  rw [utf8EncodeChar, if_neg (by omega), if_pos h2]
  show utf8DecAux 0 0 0 0 ((0xC0 + c / 0x40) :: (0x80 + c % 0x40) :: tail) = _
  rw [utf8DecAux.eq_3, if_neg (by omega), if_neg (by omega), if_pos (by omega),
    utf8DecAux.eq_4, if_pos (by omega)]
  rw [show (0xC0 + c / 0x40 - 0xC0) * 0x40 + (0x80 + c % 0x40 - 0x80) = c from by omega]

/-- Decoding one UTF-8-encoded three-byte code point (not a surrogate). -/
theorem utf8_step_3 {c : Nat} (h1 : 0x800 ≤ c) (h2 : c < 0x10000)
    (hsur : c < 0xD800 ∨ 0xE000 ≤ c) (tail : List Nat) :
    utf8DecAux 0 0 0 0 (utf8EncodeChar c ++ tail)
      = (utf8DecAux 0 0 0 0 tail).map (c :: ·) := by
  rw [utf8EncodeChar, if_neg (by omega), if_neg (by omega), if_pos h2]
  show utf8DecAux 0 0 0 0
      ((0xE0 + c / 0x1000) :: (0x80 + c / 0x40 % 0x40) :: (0x80 + c % 0x40) :: tail) = _
  rw [utf8DecAux.eq_3, if_neg (by omega), if_neg (by omega), if_neg (by omega)]
  by_cases hE0 : 0xE0 + c / 0x1000 = 0xE0
  · rw [if_pos hE0, utf8DecAux.eq_5, if_pos (by omega), utf8DecAux.eq_4, if_pos (by omega)]
    rw [show ((0xE0 + c / 0x1000 - 0xE0) * 0x40 + (0x80 + c / 0x40 % 0x40 - 0x80)) * 0x40 +
        (0x80 + c % 0x40 - 0x80) = c from by omega]
  · by_cases hED : 0xE0 + c / 0x1000 = 0xED
    · rw [if_neg hE0, if_pos hED, utf8DecAux.eq_5, if_pos (by omega),
        utf8DecAux.eq_4, if_pos (by omega)]
      rw [show ((0xE0 + c / 0x1000 - 0xE0) * 0x40 + (0x80 + c / 0x40 % 0x40 - 0x80)) * 0x40 +
          (0x80 + c % 0x40 - 0x80) = c from by omega]
    · rw [if_neg hE0, if_neg hED, if_pos (by omega), utf8DecAux.eq_5, if_pos (by omega),
        utf8DecAux.eq_4, if_pos (by omega)]
      rw [show ((0xE0 + c / 0x1000 - 0xE0) * 0x40 + (0x80 + c / 0x40 % 0x40 - 0x80)) * 0x40 +
          (0x80 + c % 0x40 - 0x80) = c from by omega]

/-- Decoding one UTF-8-encoded four-byte code point. -/
theorem utf8_step_4 {c : Nat} (h1 : 0x10000 ≤ c) (h2 : c < 0x110000) (tail : List Nat) :
    utf8DecAux 0 0 0 0 (utf8EncodeChar c ++ tail)
      = (utf8DecAux 0 0 0 0 tail).map (c :: ·) := by
  rw [utf8EncodeChar, if_neg (by omega), if_neg (by omega), if_neg (by omega)]
  show utf8DecAux 0 0 0 0
      ((0xF0 + c / 0x40000) :: (0x80 + c / 0x1000 % 0x40) :: (0x80 + c / 0x40 % 0x40) ::
        (0x80 + c % 0x40) :: tail) = _
  rw [utf8DecAux.eq_3, if_neg (by omega), if_neg (by omega), if_neg (by omega),
    if_neg (by omega), if_neg (by omega), if_neg (by omega)]
  by_cases hF0 : 0xF0 + c / 0x40000 = 0xF0
  · rw [if_pos hF0, utf8DecAux.eq_6, if_pos (by omega), utf8DecAux.eq_5, if_pos (by omega),
      utf8DecAux.eq_4, if_pos (by omega)]
    rw [show (((0xF0 + c / 0x40000 - 0xF0) * 0x40 + (0x80 + c / 0x1000 % 0x40 - 0x80)) * 0x40 +
        (0x80 + c / 0x40 % 0x40 - 0x80)) * 0x40 + (0x80 + c % 0x40 - 0x80) = c from by omega]
  · by_cases hF4 : 0xF0 + c / 0x40000 = 0xF4
    · rw [if_neg hF0, if_pos hF4, utf8DecAux.eq_6, if_pos (by omega), utf8DecAux.eq_5,
        if_pos (by omega), utf8DecAux.eq_4, if_pos (by omega)]
      rw [show (((0xF0 + c / 0x40000 - 0xF0) * 0x40 + (0x80 + c / 0x1000 % 0x40 - 0x80)) * 0x40 +
          (0x80 + c / 0x40 % 0x40 - 0x80)) * 0x40 + (0x80 + c % 0x40 - 0x80) = c from by omega]
    · rw [if_neg hF0, if_neg hF4, if_pos (by omega), utf8DecAux.eq_6, if_pos (by omega),
        utf8DecAux.eq_5, if_pos (by omega), utf8DecAux.eq_4, if_pos (by omega)]
      rw [show (((0xF0 + c / 0x40000 - 0xF0) * 0x40 + (0x80 + c / 0x1000 % 0x40 - 0x80)) * 0x40 +
          (0x80 + c / 0x40 % 0x40 - 0x80)) * 0x40 + (0x80 + c % 0x40 - 0x80) = c from by omega]

/-- UTF-8 decoding inverts UTF-8 encoding on surrogate-free scalar values. -/
theorem utf8Decode_encode :
    ∀ s : List Nat, (∀ c ∈ s, c < 0x110000 ∧ (c < 0xD800 ∨ 0xE000 ≤ c)) →
      utf8Decode (utf8Encode s) = some s := by
  intro s
  induction s with
  | nil => intro _; rfl
  | cons c rest ih =>
    intro h
    obtain ⟨hlt, hsur⟩ := h c (List.mem_cons_self c rest)
    have ih' := ih (fun x hx => h x (List.mem_cons_of_mem _ hx))
    show utf8DecAux 0 0 0 0 (utf8EncodeChar c ++ utf8Encode rest) = some (c :: rest)
    by_cases h1 : c < 0x80
    · rw [utf8_step_1 h1]
      rw [show utf8DecAux 0 0 0 0 (utf8Encode rest) = some rest from ih']
      rfl
    · by_cases h2 : c < 0x800
      · rw [utf8_step_2 (by omega) h2]
        rw [show utf8DecAux 0 0 0 0 (utf8Encode rest) = some rest from ih']
        rfl
      · by_cases h3 : c < 0x10000
        · rw [utf8_step_3 (by omega) h3 hsur]
          rw [show utf8DecAux 0 0 0 0 (utf8Encode rest) = some rest from ih']
          rfl
        · rw [utf8_step_4 (by omega) hlt]
          rw [show utf8DecAux 0 0 0 0 (utf8Encode rest) = some rest from ih']
          rfl

/-- A UTF-16 byte stream (which starts with the `FF` of the byte-order
mark) is never valid UTF-8. -/
theorem utf8Decode_utf16Encode_none (s : List Nat) :
    utf8Decode (utf16Encode s) = none := by
  show utf8DecAux 0 0 0 0 (0xFF :: 0xFE :: utf16EncodeBody s) = none
  rw [utf8DecAux.eq_3]
  norm_num

/-- Decoding one UTF-16-LE-encoded code point in the basic plane. -/
theorem utf16_step_bmp {c : Nat} (h2 : c < 0x10000) (hsur : c < 0xD800 ∨ 0xE000 ≤ c)
    (tail : List Nat) :
    utf16LEAux none (utf16EncodeChar c ++ tail) = (utf16LEAux none tail).map (c :: ·) := by
  rw [utf16EncodeChar, if_pos h2]
  show utf16LEAux none ((c % 0x100) :: (c / 0x100) :: tail) = _
  rw [utf16LEAux.eq_4, if_pos (by omega)]
  rw [show c % 0x100 + 0x100 * (c / 0x100) = c from by omega]

/-- Decoding one UTF-16-LE-encoded supplementary code point (a surrogate
pair). -/
theorem utf16_step_supp {c : Nat} (h1 : 0x10000 ≤ c) (h2 : c < 0x110000)
    (tail : List Nat) :
    utf16LEAux none (utf16EncodeChar c ++ tail) = (utf16LEAux none tail).map (c :: ·) := by
  rw [utf16EncodeChar, if_neg (by omega)]
  show utf16LEAux none
      (((0xD800 + (c - 0x10000) / 0x400) % 0x100) ::
        ((0xD800 + (c - 0x10000) / 0x400) / 0x100) ::
        ((0xDC00 + (c - 0x10000) % 0x400) % 0x100) ::
        ((0xDC00 + (c - 0x10000) % 0x400) / 0x100) :: tail) = _
  rw [utf16LEAux.eq_4, if_neg (by omega), if_pos (by omega),
    utf16LEAux.eq_5, if_pos (by omega)]
  rw [show 0x10000 +
      ((0xD800 + (c - 0x10000) / 0x400) % 0x100 +
          0x100 * ((0xD800 + (c - 0x10000) / 0x400) / 0x100) - 0xD800) * 0x400 +
      ((0xDC00 + (c - 0x10000) % 0x400) % 0x100 +
          0x100 * ((0xDC00 + (c - 0x10000) % 0x400) / 0x100) - 0xDC00) = c from by omega]

/-- UTF-16-LE decoding inverts the body encoding. -/
theorem utf16DecodeLE_encodeBody :
    ∀ s : List Nat, (∀ c ∈ s, c < 0x110000 ∧ (c < 0xD800 ∨ 0xE000 ≤ c)) →
      utf16LEAux none (utf16EncodeBody s) = some s := by
  intro s
  induction s with
  | nil => intro _; rfl
  | cons c rest ih =>
    intro h
    obtain ⟨hlt, hsur⟩ := h c (List.mem_cons_self c rest)
    have ih' := ih (fun x hx => h x (List.mem_cons_of_mem _ hx))
    show utf16LEAux none (utf16EncodeChar c ++ utf16EncodeBody rest) = some (c :: rest)
    by_cases h2 : c < 0x10000
    · rw [utf16_step_bmp h2 hsur, ih']
      rfl
    · rw [utf16_step_supp (by omega) hlt, ih']
      rfl

/-- Python's `utf-16` codec inverts `utf-16` encoding (the byte-order mark
is written and honoured). -/
theorem utf16Decode_encode (s : List Nat)
    (h : ∀ c ∈ s, c < 0x110000 ∧ (c < 0xD800 ∨ 0xE000 ≤ c)) :
    utf16Decode (utf16Encode s) = some s := by
  have e : utf16Decode (utf16Encode s) = utf16LEAux none (utf16EncodeBody s) := rfl
  rw [e, utf16DecodeLE_encodeBody s h]

/-- The codec loop always succeeds: the `latin-1` stage is total, so the
`cp1252` stage and the lossy fallback are unreachable. -/
theorem tryEncodings_isSome (b : List Nat) : (tryEncodings b).isSome = true := by
  unfold tryEncodings
  cases h1 : utf8Decode b <;> cases h2 : utf16Decode b <;>
    simp [latin1Decode, Option.orElse]

/-! ## Claims -/

/-- Claim C2: the job-search normalizer buckets the model-supplied platform
text into the fixed enumeration by case-insensitive substring matching;
`"LinkedIn Jobs"` maps to `"LinkedIn"` and `"Monster"` to `"Other"` — but,
contradicting the claim (and the enumeration the code itself instructs the
model to use), platform text containing `"indeed"` is mapped to `"Other"`,
never `"Indeed"`; every output lies in the enumeration. -/
theorem C2_theorem :
    normalize_platform ("Indeed".toList) = "Other".toList
    ∧ normalize_platform ("LinkedIn Jobs".toList) = "LinkedIn".toList
    ∧ normalize_platform ("Monster".toList) = "Other".toList
    ∧ ∀ p : List Char,
        normalize_platform p = "104".toList ∨
        normalize_platform p = "1111".toList ∨
        normalize_platform p = "CakeResume".toList ∨
        normalize_platform p = "LinkedIn".toList ∨
        normalize_platform p = "Other".toList := by
  refine ⟨by decide, by decide, by decide, ?_⟩
  intro p
  unfold normalize_platform
  split_ifs <;> simp

/-- Claim C1 counterexample: a match-analysis request that has a file part
but an empty `jobDescription` is not rejected — the handler proceeds
straight to the model call. -/
theorem C1_counterexample :
    analyze_job_match true (some []) [] = HandlerOutcome.callModel (app_match_prompt [] [])
    ∧ (analyze_job_match true (some []) []).isBadRequest = false := by
  constructor
  · rfl
  · rfl

/-- Claim C1 (amended): the `/api/analyze-job-match` handler rejects with a
400 error only when the file part is missing; with a file part present the
request always proceeds to the external model call, regardless of the
`jobDescription` value — in particular, an empty `jobDescription` is not
rejected. -/
theorem C1_theorem :
    ∀ (jd : Option (List Nat)) (fb : List Nat),
      (analyze_job_match true jd fb).isBadRequest = false
      ∧ analyze_job_match false jd fb = HandlerOutcome.badRequest (pystr "No file part") := by
  intro jd fb
  constructor
  · simp only [analyze_job_match, Bool.not_true, Bool.false_eq_true, if_false]
    rfl
  · rfl

/-- Claim C4 counterexample: the resume snippet used by cover-letter
generation is truncated to 3000 characters with no visible truncation
marker appended. -/
theorem C4_counterexample :
    cover_letter_resume_snippet (List.replicate 3001 'a') = List.replicate 3000 'a'
    ∧ ¬ CONTENT_TRUNCATED_MARKER <:+ cover_letter_resume_snippet (List.replicate 3001 'a') := by
  have h1 : cover_letter_resume_snippet (List.replicate 3001 'a') = List.replicate 3000 'a' := by
    show (List.replicate 3001 'a').take 3000 = List.replicate 3000 'a'
    rw [List.take_replicate]
    congr 1
  refine ⟨h1, ?_⟩
  intro hsuf
  rw [h1] at hsuf
  have hmem : '[' ∈ CONTENT_TRUNCATED_MARKER := by decide
  have : '[' ∈ List.replicate 3000 'a' := hsuf.subset hmem
  have := List.eq_of_mem_replicate this
  simp at this

/-- Claim C4 (amended): embedded document text is truncated to the fixed
per-use-case maxima — 6000 characters for resume analysis, where the
truncation marker is appended, and 2000/3000 characters for the
job-description/resume snippets of match analysis and cover-letter
generation, which are plain prefixes with no marker appended. -/
theorem C4_theorem :
    ∀ (r jd : List Char),
      (r.length ≤ 6000 → resume_text_for_analysis r = r)
      ∧ (6000 < r.length →
          resume_text_for_analysis r = r.take 6000 ++ CONTENT_TRUNCATED_MARKER
          ∧ CONTENT_TRUNCATED_MARKER <:+ resume_text_for_analysis r)
      ∧ cover_letter_jd_snippet jd <+: jd
      ∧ (cover_letter_jd_snippet jd).length = min 2000 jd.length
      ∧ cover_letter_resume_snippet r <+: r
      ∧ (cover_letter_resume_snippet r).length = min 3000 r.length
      ∧ match_jd_snippet jd <+: jd
      ∧ (match_jd_snippet jd).length = min 2000 jd.length
      ∧ match_resume_snippet r <+: r
      ∧ (match_resume_snippet r).length = min 3000 r.length := by
  intro r jd
  refine ⟨fun hle => ?_, fun hgt => ⟨?_, ?_⟩, ⟨jd.drop 2000, List.take_append_drop _ _⟩,
    List.length_take .., ⟨r.drop 3000, List.take_append_drop _ _⟩, List.length_take ..,
    ⟨jd.drop 2000, List.take_append_drop _ _⟩, List.length_take ..,
    ⟨r.drop 3000, List.take_append_drop _ _⟩, List.length_take ..⟩
  · simp [resume_text_for_analysis, Nat.not_lt.mpr hle]
  · simp [resume_text_for_analysis, hgt]
  · simp only [resume_text_for_analysis, hgt, if_pos]
    exact List.suffix_append _ _

/-- Claim C4 witness: the amended statement at a 6001-character resume. -/
theorem C4_witness :
    6000 < (List.replicate 6001 'b').length
    ∧ CONTENT_TRUNCATED_MARKER <:+ resume_text_for_analysis (List.replicate 6001 'b') := by
  have h : 6000 < (List.replicate 6001 'b').length := by
    rw [List.length_replicate]
    omega
  exact ⟨h, ((C4_theorem (List.replicate 6001 'b') []).2.1 h).2⟩

/-- Claim C5: when the model's response text is not parseable JSON, job
search returns an empty list without raising, while resume analysis fails
with the hard `RuntimeError` that propagates to the caller. -/
theorem C5_theorem :
    (∀ (loads : List Char → Option Json) (pyhash : Json → Option Int) (t : List Char),
      loads (pyStripC (strip_code_fences t)) = none →
      search_jobs_from_response loads pyhash (some t) = .ok [])
    ∧ (∀ (loads : List Char → Option Json) (t : List Char),
      loads t = none →
      analyze_resume_from_response loads t
        = .error (.runtimeError RESUME_PARSE_FAILURE_MSG)) := by
  constructor
  · intro loads pyhash t hparse
    by_cases ht : t = []
    · simp [search_jobs_from_response, ht]
    · simp [search_jobs_from_response, ht, hparse]
  · intro loads t hparse
    simp [analyze_resume_from_response, hparse]

/-- Claim C5 witness: both behaviours at a concrete unparseable response. -/
theorem C5_witness :
    search_jobs_from_response (fun _ => none) (fun _ => some 0) (some ("oops".toList)) = .ok []
    ∧ analyze_resume_from_response (fun _ => none) ("oops".toList)
        = .error (.runtimeError RESUME_PARSE_FAILURE_MSG) :=
  ⟨C5_theorem.1 _ _ _ rfl, C5_theorem.2 _ _ rfl⟩

/-- Claim C6: for every JSON object parsed from the profile-analysis
response, the normalized result has all four required keys; a missing
`skills`/`suggestedRoles` becomes the empty sequence and a missing
`name`/`summary` the string `"Unknown"` (the values `default_for`
assigns), present keys keep their values, and a missing key never fails
the request. -/
theorem C6_theorem :
    ∀ (loads : List Char → Option Json) (t : List Char) (kvs : List (String × Json)),
      loads t = some (.obj kvs) →
      analyze_resume_from_response loads t = .ok (.obj (validate_profile kvs))
      ∧ ∀ f ∈ required_fields,
          (validate_profile kvs).lookup f = some ((kvs.lookup f).getD (default_for f)) := by
  intro loads t kvs hloads
  constructor
  · simp [analyze_resume_from_response, hloads, profile_fill_obj, validate_profile]
  · intro f hf
    have hv : validate_profile kvs
        = fillField (fillField (fillField (fillField kvs "name") "summary") "skills")
            "suggestedRoles" := rfl
    simp only [required_fields, List.mem_cons, List.mem_singleton, List.not_mem_nil,
      or_false] at hf
    rw [hv]
    rcases hf with rfl | rfl | rfl | rfl
    · rw [fillField_lookup_ne _ _ _ (by decide), fillField_lookup_ne _ _ _ (by decide),
        fillField_lookup_ne _ _ _ (by decide), fillField_lookup_self]
    · rw [fillField_lookup_ne _ _ _ (by decide), fillField_lookup_ne _ _ _ (by decide),
        fillField_lookup_self, fillField_lookup_ne _ _ _ (by decide)]
    · rw [fillField_lookup_ne _ _ _ (by decide), fillField_lookup_self,
        fillField_lookup_ne _ _ _ (by decide), fillField_lookup_ne _ _ _ (by decide)]
    · rw [fillField_lookup_self, fillField_lookup_ne _ _ _ (by decide),
        fillField_lookup_ne _ _ _ (by decide), fillField_lookup_ne _ _ _ (by decide)]

/-- Claim C6 witness: a profile missing `skills` gets `skills = []`. -/
theorem C6_witness :
    analyze_resume_from_response (fun _ => some (Json.obj [("name", Json.str "Ann")])) []
      = .ok (.obj (validate_profile [("name", Json.str "Ann")]))
    ∧ (validate_profile [("name", Json.str "Ann")]).lookup "skills"
        = some ((([("name", Json.str "Ann")] : List (String × Json)).lookup "skills").getD
            (default_for "skills")) := by
  refine ⟨(C6_theorem _ _ _ rfl).1, (C6_theorem (fun _ => some (Json.obj [("name", Json.str "Ann")])) [] _ rfl).2 "skills" (by decide)⟩

/-- Claim C7 counterexample: a `.doc` filename accompanied by a declared
PDF MIME type is dispatched to the PDF branch, where extraction can
succeed — it does not "always fail with `UnsupportedFormatError`
regardless of the content". -/
theorem C7_counterexample :
    parse_resume (fun _ => .ok [pystr "sometext"]) (fun _ => .error [])
      [] ("resume.doc".toList) (some PDF_MIME) = .ok (pystr "sometext") := by
  rfl

/-- Claim C7 (amended): for every file content and filename ending in
`.doc` (case-insensitive), extraction fails with `UnsupportedFormatError`
and the convert-to-`.docx`/`.pdf` message — provided the declared MIME
type is neither the PDF nor the DOCX MIME type (in particular whenever it
is absent); a declared PDF/DOCX MIME type takes priority over the
extension. -/
theorem C7_theorem :
    ∀ (readPdf : List Nat → Except (List Nat) (List (List Nat)))
      (readDocx : List Nat → Except (List Nat) DocxDoc)
      (content : List Nat) (filename : List Char) (mime : Option String),
      ".doc".toList <:+ filename.map asciiLowerChar →
      mime ≠ some PDF_MIME → mime ≠ some DOCX_MIME →
      parse_resume readPdf readDocx content filename mime
        = .error (.unsupportedFormat
            (pystr "Legacy .doc format not supported. Please convert to .docx or .pdf")) := by
  intro readPdf readDocx content filename mime hdoc hpdf hdocx
  unfold parse_resume
  rw [if_neg, if_neg, if_pos]
  · exact List.isSuffixOf_iff_suffix.mpr hdoc
  · intro hcase
    rcases hcase with hs | hm
    · exact not_docx_suffix_of_doc hdoc (List.isSuffixOf_iff_suffix.mp hs)
    · exact hdocx hm
  · intro hcase
    rcases hcase with hs | hm
    · exact not_pdf_suffix_of_doc hdoc (List.isSuffixOf_iff_suffix.mp hs)
    · exact hpdf hm

/-- Claim C7 witness: the amended statement at the uppercase filename
`"cv.DOC"` with no declared MIME type. -/
theorem C7_witness :
    parse_resume (fun _ => .error []) (fun _ => .error []) [] ("cv.DOC".toList) none
      = .error (.unsupportedFormat
          (pystr "Legacy .doc format not supported. Please convert to .docx or .pdf")) :=
  C7_theorem _ _ _ _ _ (by decide) (by simp) (by simp)

/-- Claim C8: PDF extraction joins the non-empty page texts with a
blank-line separator (and strips the result); a successfully parsed PDF or
DOCX whose text is entirely empty/whitespace yields that format's fixed
sentinel string instead of failing or returning empty text. -/
theorem C8_theorem :
    (∀ (readPdf : List Nat → Except (List Nat) (List (List Nat)))
        (content : List Nat) (pages : List (List Nat)),
      readPdf content = .ok pages →
      ((∀ p ∈ pages, pyStrip p = []) →
          extract_text_from_pdf readPdf content = .ok PDF_SENTINEL)
      ∧ ((∃ p ∈ pages, pyStrip p ≠ []) →
          extract_text_from_pdf readPdf content
            = .ok (pyStrip (pyJoin (pystr "\n\n") (pages.filter (fun p => p ≠ []))))))
    ∧ (∀ (readDocx : List Nat → Except (List Nat) DocxDoc)
        (content : List Nat) (doc : DocxDoc),
      readDocx content = .ok doc →
      (∀ p ∈ doc.paragraphs, pyStrip p = []) →
      (∀ tb ∈ doc.tables, ∀ row ∈ tb, ∀ cell ∈ row, pyStrip cell = []) →
      extract_text_from_docx readDocx content = .ok DOCX_SENTINEL) := by
  constructor
  · intro readPdf content pages hread
    constructor
    · intro hall
      have hnil : pyStrip (pyJoin (pystr "\n\n") (pages.filter (fun p => p ≠ []))) = [] := by
        rw [pyStrip, pyStripBy_eq_nil_iff]
        intro c hc
        rcases mem_pyJoin _ _ _ hc with hsep | ⟨p, hp, hcp⟩
        · exact blank_sep_whitespace c hsep
        · have hpp : p ∈ pages := (List.mem_filter.mp hp).1
          exact (pyStripBy_eq_nil_iff _ _).mp (hall p hpp) c hcp
      unfold extract_text_from_pdf
      rw [hread]
      dsimp only
      rw [if_pos hnil]
    · rintro ⟨p0, hp0, hstrip⟩
      have hc0 : ∃ c ∈ p0, ¬ pyIsSpaceN c := by
        by_contra hno
        push_neg at hno
        exact hstrip ((pyStripBy_eq_nil_iff _ _).mpr (by simpa using hno))
      obtain ⟨c, hcp, hcw⟩ := hc0
      have hp0ne : p0 ≠ [] := by
        intro hnil0
        rw [hnil0] at hcp
        simp at hcp
      have hp0f : p0 ∈ pages.filter (fun p => p ≠ []) :=
        List.mem_filter.mpr ⟨hp0, by simpa using hp0ne⟩
      have hcj : c ∈ pyJoin (pystr "\n\n") (pages.filter (fun p => p ≠ [])) :=
        mem_pyJoin_of_mem _ _ _ hp0f _ hcp
      have hne : pyStrip (pyJoin (pystr "\n\n") (pages.filter (fun p => p ≠ []))) ≠ [] := by
        intro hnil
        exact hcw ((pyStripBy_eq_nil_iff _ _).mp hnil c hcj)
      unfold extract_text_from_pdf
      rw [hread]
      dsimp only
      rw [if_neg hne]
  · intro readDocx content doc hread hpar htab
    have hpara : doc.paragraphs.filter (fun p => pyStrip p ≠ []) = [] := by
      rw [List.filter_eq_nil_iff]
      intro p hp
      simp [hpar p hp]
    have hrows : ∀ tb ∈ doc.tables, ∀ row ∈ tb,
        pyJoin (pystr " | ") ((row.map pyStrip).filter (fun c => c ≠ [])) = [] := by
      intro tb htb row hrow
      have : (row.map pyStrip).filter (fun c => c ≠ []) = [] := by
        rw [List.filter_eq_nil_iff]
        intro x hx
        obtain ⟨cell, hcell, rfl⟩ := List.mem_map.mp hx
        simp [htab tb htb row hrow cell hcell]
      rw [this]
      rfl
    have hrt : ((doc.tables.map (fun table =>
        table.map (fun row =>
          pyJoin (pystr " | ") ((row.map pyStrip).filter (fun c => c ≠ []))))).flatten).filter
            (fun r => r ≠ []) = [] := by
      rw [List.filter_eq_nil_iff]
      intro x hx
      rw [List.mem_flatten] at hx
      obtain ⟨l, hl, hxl⟩ := hx
      obtain ⟨tb, htb, rfl⟩ := List.mem_map.mp hl
      obtain ⟨row, hrow, rfl⟩ := List.mem_map.mp hxl
      simpa using hrows tb htb row hrow
    unfold extract_text_from_docx
    rw [hread]
    dsimp only
    rw [hpara, hrt]
    rfl

/-- Claim C8 witness: a PDF whose single page is a blank space yields the
PDF sentinel, a two-page PDF with text is joined with the blank-line
separator, and an all-blank DOCX yields the DOCX sentinel. -/
theorem C8_witness :
    extract_text_from_pdf (fun _ => .ok [[32]]) [] = .ok PDF_SENTINEL
    ∧ extract_text_from_pdf (fun _ => .ok [pystr "a", pystr "b"]) []
        = .ok (pyStrip (pyJoin (pystr "\n\n")
            (([pystr "a", pystr "b"] : List (List Nat)).filter (fun p => p ≠ []))))
    ∧ extract_text_from_docx (fun _ => .ok ⟨[[32]], [[[[32]]]]⟩) [] = .ok DOCX_SENTINEL := by
  refine ⟨((C8_theorem.1 _ _ _ rfl).1 (by decide)), ?_, ?_⟩
  · exact (C8_theorem.1 (fun _ => .ok [pystr "a", pystr "b"]) [] _ rfl).2
      ⟨pystr "a", by decide, by decide⟩
  · exact C8_theorem.2 (fun _ => .ok ⟨[[32]], [[[[32]]]]⟩) [] _ rfl (by decide) (by decide)

/-- Claim C9 counterexample: the plain-text path can silently return the
empty string — an empty `.txt` upload extracts to `""` with no error
raised. -/
theorem C9_counterexample :
    parse_resume (fun _ => .error []) (fun _ => .error []) [] ("resume.txt".toList) none
      = .ok [] := by
  rfl

/-- Claim C9 (amended): extraction, when it returns normally, returns a
string (never null), and on the PDF and DOCX paths that string is never
empty (sentinels or stripped non-blank text); but the plain-text path can
return the empty string — e.g. for empty or all-whitespace file content —
so empty text can propagate for `.txt`-like uploads. -/
theorem C9_theorem :
    ∀ (readPdf : List Nat → Except (List Nat) (List (List Nat)))
      (readDocx : List Nat → Except (List Nat) DocxDoc)
      (content : List Nat) (filename : List Char) (mime : Option String) (t : List Nat),
      ((".pdf".toList).isSuffixOf (filename.map asciiLowerChar) ∨ mime = some PDF_MIME ∨
        (".docx".toList).isSuffixOf (filename.map asciiLowerChar) ∨ mime = some DOCX_MIME) →
      parse_resume readPdf readDocx content filename mime = .ok t → t ≠ [] := by
  intro readPdf readDocx content filename mime t hdisp hok
  unfold parse_resume at hok
  by_cases h1 : (".pdf".toList).isSuffixOf (filename.map asciiLowerChar) ∨ mime = some PDF_MIME
  · rw [if_pos h1] at hok
    exact pdf_extract_ok_ne_nil _ _ _ hok
  · rw [if_neg h1] at hok
    have h2 : (".docx".toList).isSuffixOf (filename.map asciiLowerChar) ∨ mime = some DOCX_MIME := by
      rcases hdisp with h | h | h | h
      · exact absurd (Or.inl h) h1
      · exact absurd (Or.inr h) h1
      · exact Or.inl h
      · exact Or.inr h
    rw [if_pos h2] at hok
    exact docx_extract_ok_ne_nil _ _ _ hok

/-- Claim C9 witness: a one-page PDF with text extracts to a non-empty
string. -/
theorem C9_witness : pystr "hi" ≠ [] :=
  C9_theorem (fun _ => .ok [pystr "hi"]) (fun _ => .error []) [] ("r.pdf".toList) none
    (pystr "hi") (Or.inl (by decide)) (by rfl)

/-- Claim C10: a model response wrapped in an enclosing triple-backtick
fenced block (optionally labelled `json`) has its fence markers stripped,
keeping exactly the content between the first matching pair of fences
(the hypothesis `findSubstr ... = some c.length` says the closing fence is
the first fence after the content); an unwrapped response — one without
any backtick fence — is passed through unmodified. -/
theorem C10_theorem :
    (∀ c : List Char,
      findSubstr ("```".toList) (c ++ "```".toList) = some c.length →
      strip_code_fences ("```json".toList ++ (c ++ "```".toList)) = c)
    ∧ (∀ c : List Char,
      pyContains ("```json".toList) ("```".toList ++ (c ++ "```".toList)) = false →
      findSubstr ("```".toList) (c ++ "```".toList) = some c.length →
      strip_code_fences ("```".toList ++ (c ++ "```".toList)) = c)
    ∧ (∀ t : List Char,
      pyContains ("```".toList) t = false → strip_code_fences t = t) := by
  refine ⟨?_, ?_, ?_⟩
  · intro c hc
    have hpre7 : ("```json".toList).isPrefixOf ("```json".toList ++ (c ++ "```".toList)) :=
      List.isPrefixOf_iff_prefix.mpr (List.prefix_append _ _)
    have hfind7 := findSubstr_of_isPrefixOf hpre7
    have hcont7 : pyContains ("```json".toList) ("```json".toList ++ (c ++ "```".toList))
        = true := by unfold pyContains; rw [hfind7]; rfl
    unfold strip_code_fences
    rw [if_pos hcont7]
    have e1 : pySplit ("```json".toList) ("```json".toList ++ (c ++ "```".toList))
        = [[], c ++ "```".toList] := by
      rw [pySplit_eq_of_ne_nil _ _ (by decide) (by simp), hfind7]
      dsimp only
      rw [List.take_zero, Nat.zero_add, List.drop_left,
        pySplit_of_none _ _ (by decide) (no_json_fence_after hc)]
    rw [e1]
    have e2 : pyIdx 1 [([] : List Char), c ++ "```".toList] = c ++ "```".toList := rfl
    rw [e2, pySplit_content_fence hc]
    rfl
  · intro c hnj hc
    have hpre3 : ("```".toList).isPrefixOf ("```".toList ++ (c ++ "```".toList)) :=
      List.isPrefixOf_iff_prefix.mpr (List.prefix_append _ _)
    have hfind3 := findSubstr_of_isPrefixOf hpre3
    have hcont3 : pyContains ("```".toList) ("```".toList ++ (c ++ "```".toList))
        = true := by unfold pyContains; rw [hfind3]; rfl
    unfold strip_code_fences
    rw [if_neg (fun hcontr => by rw [hnj] at hcontr; cases hcontr), if_pos hcont3]
    have e1 : pySplit ("```".toList) ("```".toList ++ (c ++ "```".toList))
        = [[], c, []] := by
      rw [pySplit_eq_of_ne_nil _ _ (by decide) (by simp), hfind3]
      dsimp only
      rw [List.take_zero, Nat.zero_add, List.drop_left, pySplit_content_fence hc]
    rw [e1]
    have e2 : pyIdx 1 [([] : List Char), c, []] = c := rfl
    rw [e2, pySplit_content_only hc]
    rfl
  · intro t hno
    have hno7 : pyContains ("```json".toList) t = false := by
      cases hfind : findSubstr ("```json".toList) t with
      | none => unfold pyContains; rw [hfind]; rfl
      | some j =>
        have hp := findSubstr_some_isPrefixOf hfind
        have hp3 : ("```".toList).isPrefixOf (t.drop j) :=
          List.isPrefixOf_iff_prefix.mpr
            (List.IsPrefix.trans (⟨"json".toList, rfl⟩ : "```".toList <+: "```json".toList)
              (List.isPrefixOf_iff_prefix.mp hp))
        have hsome := findSubstr_isSome_of_isPrefixOf hp3
        rw [pyContains] at hno
        rw [hno] at hsome
        cases hsome
    unfold strip_code_fences
    rw [if_neg (fun hcontr => by rw [hno7] at hcontr; cases hcontr),
      if_neg (fun hcontr => by rw [hno] at hcontr; cases hcontr)]

/-- Claim C10 witness: concrete labelled and unlabelled fenced responses,
and an unfenced response. -/
theorem C10_witness :
    strip_code_fences ("```json".toList ++ ("[1, 2]".toList ++ "```".toList)) = "[1, 2]".toList
    ∧ strip_code_fences ("```".toList ++ ("[1, 2]".toList ++ "```".toList)) = "[1, 2]".toList
    ∧ strip_code_fences ("[1, 2]".toList) = "[1, 2]".toList :=
  ⟨C10_theorem.1 _ (by decide), C10_theorem.2.1 _ (by decide) (by decide),
    C10_theorem.2.2 _ (by decide)⟩

/-- Claim C3 counterexample: the Latin-1 round-trip fails — `"éé"` encoded
in Latin-1 is `E9 E9`, which the earlier `utf-16` attempt decodes (as the
single code point `U+E9E9`); and even the UTF-8 round-trip is not exact,
because the result is stripped — `"a\n"` comes back as `"a"`. -/
theorem C3_counterexample :
    extract_text_from_txt [0xE9, 0xE9] ≠ [0xE9, 0xE9]
    ∧ extract_text_from_txt (utf8Encode (pystr "a\n")) ≠ pystr "a\n" := by
  constructor
  · decide
  · decide

/-- Claim C3 (amended): extraction of a plain-text file never fails — the
codec trial loop always succeeds (the Latin-1 stage is total, so the
cp1252 stage and the lossy UTF-8 fallback are unreachable); the round-trip
property holds for the UTF-8 and UTF-16 encodings up to Python's
`str.strip()`: extracting text `s` encoded in either returns exactly
`pyStrip s` (hence exactly `s` whenever `s` has no leading or trailing
whitespace); for Latin-1 and Windows-1252 the round-trip can fail, because
an earlier codec in the fixed trial order may succeed on the encoded
bytes. -/
theorem C3_theorem :
    (∀ s : List Nat, (∀ c ∈ s, c < 0x110000 ∧ (c < 0xD800 ∨ 0xE000 ≤ c)) →
      extract_text_from_txt (utf8Encode s) = pyStrip s
      ∧ extract_text_from_txt (utf16Encode s) = pyStrip s)
    ∧ (∀ b : List Nat, (tryEncodings b).isSome = true) := by
  constructor
  · intro s h
    constructor
    · unfold extract_text_from_txt tryEncodings
      rw [utf8Decode_encode s h]
      rfl
    · unfold extract_text_from_txt tryEncodings
      rw [utf8Decode_utf16Encode_none, utf16Decode_encode s h]
      rfl
  · exact tryEncodings_isSome

/-- Claim C3 witness: the amended round-trip at the two-character text
`"hi"`. -/
theorem C3_witness :
    (∀ c ∈ pystr "hi", c < 0x110000 ∧ (c < 0xD800 ∨ 0xE000 ≤ c))
    ∧ extract_text_from_txt (utf8Encode (pystr "hi")) = pyStrip (pystr "hi")
    ∧ extract_text_from_txt (utf16Encode (pystr "hi")) = pyStrip (pystr "hi") := by
  have h : ∀ c ∈ pystr "hi", c < 0x110000 ∧ (c < 0xD800 ∨ 0xE000 ≤ c) := by decide
  exact ⟨h, (C3_theorem.1 _ h).1, (C3_theorem.1 _ h).2⟩
